import Mathlib

/-!
Verification of the furniture-sale repository: a shallow embedding of the
localStorage-backed data layer (`js/data.js`), the public showcase logic
(`js/showcase.js`) and the admin panel (`admin.js`), together with proofs of
the specification's claims about them.

Modelling conventions:
* JSON documents are represented by the inductive type `Json`; `JSON.parse`
  composed with `JSON.stringify` is the identity on such trees, so the
  stored localStorage string is modelled directly as an optional `Json`
  value (`none` = key absent / unparsable).
* JavaScript numbers are modelled as exact rationals `ℚ`.
* `Date.now()` / `new Date().toISOString()` are passed in as explicit
  parameters (`nowMs`, `now`), and `new Date(s).getTime()` as an abstract
  parameter `dateVal : String → Int`.
* A `localStorage.setItem` that throws (quota exceeded) is modelled by the
  explicit flag `writeOk : Bool`; when it is `false` the write fails and the
  stored value is left unchanged, matching the `try/catch` in `saveItems`.
-/

/-- JSON values, as produced by `JSON.parse`. -/
inductive Json where
  | null : Json
  | bool (b : Bool) : Json
  | num (q : ℚ) : Json
  | str (s : String) : Json
  | arr (elems : List Json) : Json
  | obj (fields : List (String × Json)) : Json

/-- One furniture listing record (the single entity of the data model). -/
structure Item where
  id : String
  name : String
  description : String
  price : ℚ
  retailPrice : Option ℚ
  status : String
  images : List String
  hidden : Bool
  dateAdded : String
  dateUpdated : Option String
  productLink : Option String
deriving DecidableEq, Repr

/-- Property access `j[k]` on a parsed JSON value: a field lookup on an
object, `undefined` (here `none`) on anything else. -/
def jsGetField (j : Json) (k : String) : Option Json :=
  match j with
  | Json.obj fields => fields.lookup k
  | _ => none

/-- Encoding of an `Item` as the JSON object that `JSON.stringify` writes
for it; optional fields are omitted when absent, as in JavaScript. -/
def encodeItem (i : Item) : Json :=
  Json.obj
    ([("id", Json.str i.id),
      ("name", Json.str i.name),
      ("description", Json.str i.description),
      ("price", Json.num i.price)] ++
     (match i.retailPrice with
      | some q => [("retailPrice", Json.num q)]
      | none => []) ++
     [("status", Json.str i.status),
      ("images", Json.arr (i.images.map Json.str)),
      ("hidden", Json.bool i.hidden),
      ("dateAdded", Json.str i.dateAdded)] ++
     (match i.dateUpdated with
      | some s => [("dateUpdated", Json.str s)]
      | none => []) ++
     (match i.productLink with
      | some s => [("productLink", Json.str s)]
      | none => []))

/-- Read a string-valued field (missing or ill-typed fields behave as the
neutral value, mirroring dynamic field access in the JavaScript code). -/
def jStr (o : Option Json) : String :=
  match o with
  | some (Json.str s) => s
  | _ => ""

/-- Read a numeric field. -/
def jNum (o : Option Json) : ℚ :=
  match o with
  | some (Json.num q) => q
  | _ => 0

/-- Read an optional numeric field. -/
def jNumOpt (o : Option Json) : Option ℚ :=
  match o with
  | some (Json.num q) => some q
  | _ => none

/-- Read an optional string field. -/
def jStrOpt (o : Option Json) : Option String :=
  match o with
  | some (Json.str s) => some s
  | _ => none

/-- Read a boolean field; an absent field is falsy (`hidden !== true`). -/
def jBool (o : Option Json) : Bool :=
  match o with
  | some (Json.bool b) => b
  | _ => false

/-- Read a list-of-strings field. -/
def jStrList (o : Option Json) : List String :=
  match o with
  | some (Json.arr xs) => xs.map (fun j => jStr (some j))
  | _ => []

/-- View a parsed JSON element of the stored `items` array as an `Item`. -/
def decodeItem (j : Json) : Item :=
  { id := jStr (jsGetField j "id")
    name := jStr (jsGetField j "name")
    description := jStr (jsGetField j "description")
    price := jNum (jsGetField j "price")
    retailPrice := jNumOpt (jsGetField j "retailPrice")
    status := jStr (jsGetField j "status")
    images := jStrList (jsGetField j "images")
    hidden := jBool (jsGetField j "hidden")
    dateAdded := jStr (jsGetField j "dateAdded")
    dateUpdated := jStrOpt (jsGetField j "dateUpdated")
    productLink := jStrOpt (jsGetField j "productLink") }

/-- `output` is a stable sort of `input` for the sort key `key` and the
resulting order `r`: it is a permutation of the input, it is ordered by `r`,
and the items of each key class appear in their original relative order. -/
def IsStableSortBy {K : Type} [DecidableEq K] (key : Item → K)
    (r : Item → Item → Prop) (input output : List Item) : Prop :=
  output.Perm input ∧ output.Pairwise r ∧
    ∀ v : K, output.filter (fun x => decide (key x = v)) =
      input.filter (fun x => decide (key x = v))

/-- The localStorage slot under `STORAGE_KEY`: `none` when the key is absent,
otherwise the parsed JSON document. -/
abbrev Store := Option Json

/-- The raw `parsed.items` array of the stored document (`[]` when the key is
absent, the document is not an object, or `items` is missing/not an array:
`parsed.items || []` together with the surrounding `try/catch`). -/
def rawItems (store : Store) : List Json :=
  match store with
  | none => []
  | some doc =>
    match jsGetField doc "items" with
    | some (Json.arr xs) => xs
    | _ => []

/-- `FurnitureData.loadItems`: the stored items, viewed as `Item` records. -/
def loadItems (store : Store) : List Item :=
  (rawItems store).map decodeItem

/-- The document written by `FurnitureData.saveItems`:
`{ items: ..., lastUpdated: new Date().toISOString() }`. This helper takes
the raw JSON array, since `importData` stores the imported array as-is. -/
def saveItemsRaw (writeOk : Bool) (now : String) (xs : List Json)
    (store : Store) : Bool × Store :=
  if writeOk then
    (true, some (Json.obj [("items", Json.arr xs), ("lastUpdated", Json.str now)]))
  else
    (false, store)

/-- `FurnitureData.saveItems`: serialize the given items and write them; on a
storage failure it returns `false` and the stored value is unchanged. -/
def saveItems (writeOk : Bool) (now : String) (items : List Item)
    (store : Store) : Bool × Store :=
  saveItemsRaw writeOk now (items.map encodeItem) store

/-- `FurnitureData.getItemById`. -/
def getItemById (store : Store) (id : String) : Option Item :=
  (loadItems store).find? (fun item => item.id == id)

/-- `FurnitureData.addItem`: load, push, save. -/
def addItem (writeOk : Bool) (now : String) (item : Item)
    (store : Store) : Bool × Store :=
  saveItems writeOk now (loadItems store ++ [item]) store

/-- `FurnitureData.updateItem`: replace the first item whose id matches,
forcing the stored `id` and a fresh `dateUpdated`
(`items[index] = { ...updatedItem, id, dateUpdated: ... }`). -/
def updateItem (writeOk : Bool) (now : String) (id : String)
    (updatedItem : Item) (store : Store) : Bool × Store :=
  let items := loadItems store
  match items.findIdx? (fun item => item.id == id) with
  | none => (false, store)
  | some index =>
    saveItems writeOk now
      (items.set index { updatedItem with id := id, dateUpdated := some now })
      store

/-- `FurnitureData.deleteItem`: filter the id out; `false` when nothing was
removed. -/
def deleteItem (writeOk : Bool) (now : String) (id : String)
    (store : Store) : Bool × Store :=
  let items := loadItems store
  let filteredItems := items.filter (fun item => item.id != id)
  if filteredItems.length == items.length then
    (false, store)
  else
    saveItems writeOk now filteredItems store

/-- `FurnitureData.generateId`:
`` `item-${Date.now()}-${Math.random().toString(36).substr(2, 9)}` ``, with
the clock value and the random suffix as explicit parameters. -/
def generateId (nowMs : Nat) (rand : String) : String :=
  "item-" ++ toString nowMs ++ "-" ++ rand

/-- `FurnitureData.filterByStatus`. -/
def filterByStatus (store : Store) (status : String) : List Item :=
  let items := loadItems store
  if status == "all" then
    items
  else
    items.filter (fun item => item.status == status)

/-- `FurnitureData.exportData`: `JSON.stringify({ items }, null, 2)`, as the
JSON tree being serialized (note: no `lastUpdated` field). -/
def exportData (store : Store) : Json :=
  Json.obj [("items", Json.arr (rawItems store))]

/-- `FurnitureData.importData`: the argument is the result of
`JSON.parse(jsonString)` (`none` when parsing throws). The parsed value must
have an `items` field that is an array (`!data.items || !Array.isArray(...)`
throws, caught below as `false`); the imported array is stored as-is. -/
def importData (writeOk : Bool) (now : String) (input : Option Json)
    (store : Store) : Bool × Store :=
  match input with
  | none => (false, store)
  | some data =>
    match jsGetField data "items" with
    | some (Json.arr xs) => saveItemsRaw writeOk now xs store
    | _ => (false, store)

/-- The top-level keys of a JSON object. -/
def objKeys (j : Json) : List String :=
  match j with
  | Json.obj fields => fields.map Prod.fst
  | _ => []

/-- `loadFurnitureData` (showcase): the public list is the stored items with
hidden ones filtered out (`item.hidden !== true`; an absent `hidden` field
decodes to `false`, so the test is `!item.hidden`). -/
def loadFurnitureData (store : Store) : List Item :=
  (loadItems store).filter (fun item => !item.hidden)

/-- `String.prototype.toLowerCase`, as an executable character map (Lean's
`String.toLower` is extensionally the same but is defined by well-founded
recursion on byte positions and does not reduce). -/
def jsToLower (s : String) : String :=
  String.mk (s.data.map Char.toLower)

/-- `String.prototype.includes`: `s.includes(query)`. -/
def jsIncludes (s query : String) : Bool :=
  s.toList.tails.any (fun t => query.toList.isPrefixOf t)

/-- `sortFurniture` (showcase). `Array.prototype.sort` with comparator `c` is
specified by ECMA-262 to be a stable sort consistent with `c`; it is embedded
as a stable merge sort with `le a b := c a b ≤ 0`, where `c` is the
comparator written in the source for each method. The `default` branch (and
any unrecognized method) sorts by `dateAdded`, newest first. -/
def sortFurniture (dateVal : String → Int) (items : List Item)
    (method : String) : List Item :=
  if method == "price-low" then
    items.mergeSort (fun a b => decide (a.price - b.price ≤ 0))
  else if method == "price-high" then
    items.mergeSort (fun a b => decide (b.price - a.price ≤ 0))
  else if method == "newest" then
    items.mergeSort (fun a b => decide (dateVal b.dateAdded - dateVal a.dateAdded ≤ 0))
  else if method == "oldest" then
    items.mergeSort (fun a b => decide (dateVal a.dateAdded - dateVal b.dateAdded ≤ 0))
  else
    items.mergeSort (fun a b => decide (dateVal b.dateAdded - dateVal a.dateAdded ≤ 0))

/-- `applyFiltersAndSort` (showcase): status filter when the current filter is
not `all`, then search filter when the query is nonempty (a nonempty string
is truthy), then sort. -/
def applyFiltersAndSort (dateVal : String → Int) (furniture : List Item)
    (currentFilter searchQuery currentSort : String) : List Item :=
  let result := furniture
  let result :=
    if currentFilter != "all" then
      result.filter (fun item => item.status == currentFilter)
    else
      result
  let result :=
    if searchQuery != "" then
      let query := jsToLower searchQuery
      result.filter (fun item =>
        jsIncludes (jsToLower item.name) query ||
          jsIncludes (jsToLower item.description) query)
    else
      result
  sortFurniture dateVal result currentSort

/-- The lightbox portion of the showcase `state`. -/
structure LightboxState where
  isOpen : Bool
  currentItem : Option Item
  currentImageIndex : Int
deriving DecidableEq, Repr

/-- `openLightbox`: looks the item up in the public list; bails out when it is
missing or has no images. -/
def openLightbox (furniture : List Item) (itemId : String) (imageIndex : Int)
    (lightbox : LightboxState) : LightboxState :=
  match furniture.find? (fun i => i.id == itemId) with
  | none => lightbox
  | some item =>
    if item.images.length == 0 then
      lightbox
    else
      { isOpen := true, currentItem := some item, currentImageIndex := imageIndex }

/-- `previousImage`: `(index - 1 + totalImages) % totalImages`. JavaScript `%`
is the truncated remainder, `Int.tmod`. -/
def previousImage (lightbox : LightboxState) : LightboxState :=
  match lightbox.currentItem with
  | none => lightbox
  | some item =>
    let totalImages : Int := item.images.length
    { lightbox with
        currentImageIndex := (lightbox.currentImageIndex - 1 + totalImages).tmod totalImages }

/-- `nextImage`: `(index + 1) % totalImages`. -/
def nextImage (lightbox : LightboxState) : LightboxState :=
  match lightbox.currentItem with
  | none => lightbox
  | some item =>
    let totalImages : Int := item.images.length
    { lightbox with
        currentImageIndex := (lightbox.currentImageIndex + 1).tmod totalImages }

/-- `AdminPanel.duplicateItem`: copy the item under a freshly generated id,
with `" (Copy)"` appended to the name, and add it to the collection. -/
def duplicateItem (writeOk : Bool) (nowMs : Nat) (rand : String) (now : String)
    (id : String) (store : Store) : Store :=
  match getItemById store id with
  | none => store
  | some item =>
    let newItem := { item with
      id := generateId nowMs rand
      name := item.name ++ " (Copy)"
      dateUpdated := some now }
    (addItem writeOk now newItem store).2

/-- The sortable fields of the admin items table (`AdminPanel.sortItems`
branches on `price` and `dateUpdated` and treats every other field as a
string). -/
inductive SortField where
  | price
  | dateUpdated
  | name
  | description
  | status
deriving DecidableEq, Repr

/-- Sort direction of `AdminPanel.sortItems`. -/
inductive SortOrder where
  | asc
  | desc
deriving DecidableEq, Repr

/-- `new Date(aVal || 0).getTime()` for the `dateUpdated` column: an absent or
empty value is falsy and yields the epoch, i.e. `0`. -/
def dateKey (dateVal : String → Int) (d : Option String) : Int :=
  match d with
  | none => 0
  | some s => if s == "" then 0 else dateVal s

/-- `aVal < bVal` inside the `AdminPanel.sortItems` comparator, after the
per-field coercions: `parseFloat(aVal) || 0` for `price` (the stored price is
already a number), the epoch milliseconds for `dateUpdated`, and
`(aVal || '').toString().toLowerCase()` for string fields. -/
def adminLt (dateVal : String → Int) (field : SortField) (a b : Item) : Bool :=
  match field with
  | SortField.price => decide (a.price < b.price)
  | SortField.dateUpdated =>
      decide (dateKey dateVal a.dateUpdated < dateKey dateVal b.dateUpdated)
  | SortField.name => decide (jsToLower a.name < jsToLower b.name)
  | SortField.description => decide (jsToLower a.description < jsToLower b.description)
  | SortField.status => decide (jsToLower a.status < jsToLower b.status)

/-- The `AdminPanel.sortItems` comparator: `-1`/`1` on a strict comparison,
flipped for descending order, `0` on ties. -/
def adminCmp (dateVal : String → Int) (field : SortField) (order : SortOrder)
    (a b : Item) : Int :=
  if adminLt dateVal field a b then
    (if order = SortOrder.asc then -1 else 1)
  else if adminLt dateVal field b a then
    (if order = SortOrder.asc then 1 else -1)
  else
    0

/-- `AdminPanel.sortItems`, embedded like `sortFurniture` as a stable merge
sort over the comparator. -/
def sortItems (dateVal : String → Int) (items : List Item) (field : SortField)
    (order : SortOrder) : List Item :=
  items.mergeSort (fun a b => decide (adminCmp dateVal field order a b ≤ 0))

/-- `AdminPanel.MAX_FILE_SIZE`: 200KB. -/
def MAX_FILE_SIZE : Nat := 200 * 1024

/-- The quality-reduction loop of `AdminPanel.processImage`:
`while (dataUrl.length > this.MAX_FILE_SIZE * 1.37 && quality > 0.1) {
quality -= 0.1; dataUrl = canvas.toDataURL('image/jpeg', quality); }`.
The canvas encoder is the abstract parameter `toDataURL`; the machine
numbers `1.37`, `0.1` and `0.8` are modelled as exact rationals. The
recursion is on explicit fuel; `compressLoop_spec` below shows that the
fuel of `processImageQuality` is never exhausted. -/
def compressLoop (toDataURL : ℚ → String) : Nat → ℚ → ℚ
  | 0, quality => quality
  | fuel + 1, quality =>
    if ((toDataURL quality).length : ℚ) > (MAX_FILE_SIZE : ℚ) * 137 / 100 ∧
        quality > 1 / 10 then
      compressLoop toDataURL fuel (quality - 1 / 10)
    else
      quality

/-- The final JPEG quality chosen by `AdminPanel.processImage`, starting from
`quality = 0.8`. -/
def processImageQuality (toDataURL : ℚ → String) : ℚ :=
  compressLoop toDataURL 7 (8 / 10)

/-- The parsed import input has a top-level `items` field holding an array
(the condition under which `importData` does not throw). -/
def hasItemsArray (input : Option Json) : Prop :=
  ∃ data xs, input = some data ∧ jsGetField data "items" = some (Json.arr xs)

/-- A concrete two-image item, used to exercise the lightbox theorems. -/
def lightboxDemoItem : Item :=
  { id := "item-1", name := "Chair", description := "A chair", price := 10,
    retailPrice := none, status := "available", images := ["a.jpg", "b.jpg"],
    hidden := false, dateAdded := "2024-01-01", dateUpdated := none,
    productLink := none }

/-- A concrete open lightbox on `lightboxDemoItem`, at image index 1. -/
def lightboxDemo : LightboxState :=
  { isOpen := true, currentItem := some lightboxDemoItem, currentImageIndex := 1 }

/-- A concrete item whose id is the output of `generateId` for the clock value
5 and the random suffix `"abcdefghi"`. -/
def dupDemoItem : Item :=
  { id := generateId 5 "abcdefghi", name := "Chair", description := "Oak chair",
    price := 120, retailPrice := none, status := "available", images := ["a.jpg"],
    hidden := false, dateAdded := "2024-01-01", dateUpdated := none,
    productLink := none }

/-- A store holding exactly `dupDemoItem`. -/
def dupDemoStore : Store := (saveItems true "2024-01-01" [dupDemoItem] none).2

/-- A concrete hidden item. -/
def hiddenDemoItem : Item :=
  { id := "item-2", name := "Table", description := "Hidden table", price := 40,
    retailPrice := none, status := "pending", images := ["t.jpg"],
    hidden := true, dateAdded := "2024-01-02", dateUpdated := none,
    productLink := none }

/-- A store holding one visible and one hidden item. -/
def showcaseDemoStore : Store :=
  (saveItems true "2024-01-02" [dupDemoItem, hiddenDemoItem] none).2

theorem decodeItem_encodeItem (i : Item) : decodeItem (encodeItem i) = i := by
  rcases i with ⟨id, name, description, price, retailPrice, status, images,
    hidden, dateAdded, dateUpdated, productLink⟩
  cases retailPrice <;> cases dateUpdated <;> cases productLink <;>
    simp [decodeItem, encodeItem, jsGetField, jStr, jNum, jNumOpt, jStrOpt,
      jBool, jStrList, List.lookup, List.map_map, Function.comp_def]

theorem loadItems_saveItems (now : String) (items : List Item) (store : Store) :
    loadItems (saveItems true now items store).2 = items := by
  simp [loadItems, saveItems, saveItemsRaw, rawItems, jsGetField, List.lookup,
    List.map_map, Function.comp_def, decodeItem_encodeItem]

theorem set_of_getElem?_eq {α : Type} (l : List α) (n : Nat) (a : α)
    (h : l[n]? = some a) : l.set n a = l := by
  induction l generalizing n with
  | nil => simp at h
  | cons x xs ih =>
    cases n with
    | zero =>
      simp only [List.getElem?_cons_zero, Option.some.injEq] at h
      simp [h]
    | succ n =>
      simp only [List.getElem?_cons_succ] at h
      simp [ih n h]

theorem mergeSort_isStableSortBy {K : Type} [DecidableEq K]
    (key : Item → K) (le : Item → Item → Bool)
    (htrans : ∀ a b c, le a b → le b c → le a c)
    (htot : ∀ a b, le a b || le b a)
    (hkey : ∀ a b, key a = key b → le a b)
    (l : List Item) :
    IsStableSortBy key (fun a b => le a b = true) l (l.mergeSort le) := by
  refine ⟨List.mergeSort_perm l le, List.sorted_mergeSort htrans htot l, ?_⟩
  intro v
  set p : Item → Bool := fun x => decide (key x = v) with hp
  have hmem : ∀ x ∈ l.filter p, key x = v := by
    intro x hx
    have := (List.mem_filter.mp hx).2
    simpa [hp] using this
  have hpairwise : (l.filter p).Pairwise (fun a b => le a b = true) := by
    apply List.pairwise_of_forall_mem_list
    intro a ha b hb
    exact hkey a b ((hmem a ha).trans (hmem b hb).symm)
  have hsub : List.Sublist (l.filter p) (l.mergeSort le) :=
    List.sublist_mergeSort htrans htot hpairwise (List.filter_sublist l)
  have hsub2 : List.Sublist (l.filter p) ((l.mergeSort le).filter p) := by
    have h1 := hsub.filter p
    rwa [List.filter_filter, show (fun a => p a && p a) = p from funext fun a => Bool.and_self _]
      at h1
  have hperm : List.Perm ((l.mergeSort le).filter p) (l.filter p) :=
    (List.mergeSort_perm l le).filter p
  exact (hsub2.eq_of_length hperm.length_eq.symm).symm

theorem mergeSort_stableSortBy_asc {K : Type} [LinearOrder K]
    (key : Item → K) (l : List Item) :
    IsStableSortBy key (fun a b => key a ≤ key b) l
      (l.mergeSort (fun a b => decide (key a ≤ key b))) := by
  have h := mergeSort_isStableSortBy key (fun a b => decide (key a ≤ key b))
    (fun a b c hab hbc => by
      simp only [decide_eq_true_eq] at *
      exact le_trans hab hbc)
    (fun a b => by
      simp only [Bool.or_eq_true, decide_eq_true_eq]
      exact le_total (key a) (key b))
    (fun a b h => by simp [h])
    l
  refine ⟨h.1, h.2.1.imp ?_, h.2.2⟩
  intro a b hab
  simpa using hab

theorem mergeSort_stableSortBy_desc {K : Type} [LinearOrder K]
    (key : Item → K) (l : List Item) :
    IsStableSortBy key (fun a b => key b ≤ key a) l
      (l.mergeSort (fun a b => decide (key b ≤ key a))) := by
  have h := mergeSort_isStableSortBy key (fun a b => decide (key b ≤ key a))
    (fun a b c hab hbc => by
      simp only [decide_eq_true_eq] at *
      exact le_trans hbc hab)
    (fun a b => by
      simp only [Bool.or_eq_true, decide_eq_true_eq]
      exact le_total (key b) (key a))
    (fun a b h => by simp [h])
    l
  refine ⟨h.1, h.2.1.imp ?_, h.2.2⟩
  intro a b hab
  simpa using hab

theorem compressLoop_spec (toDataURL : ℚ → String) :
    ∀ (fuel : Nat) (q : ℚ), 0 < q → q ≤ (fuel + 1) / 10 →
      (∃ k ≤ fuel, compressLoop toDataURL fuel q = q - k / 10) ∧
      ¬(((toDataURL (compressLoop toDataURL fuel q)).length : ℚ) >
          (MAX_FILE_SIZE : ℚ) * 137 / 100 ∧ compressLoop toDataURL fuel q > 1 / 10) ∧
      ∀ extra, compressLoop toDataURL (fuel + extra) q = compressLoop toDataURL fuel q := by
  intro fuel
  induction fuel with
  | zero =>
    intro q hq hle
    have hle' : q ≤ 1 / 10 := by
      have : ((0 : Nat) + 1 : ℚ) / 10 = 1 / 10 := by norm_num
      rw [this] at hle
      exact hle
    have hguard : ¬(((toDataURL q).length : ℚ) > (MAX_FILE_SIZE : ℚ) * 137 / 100 ∧
        q > 1 / 10) := by
      rintro ⟨-, hgt⟩
      linarith
    refine ⟨⟨0, Nat.le_refl 0, by simp [compressLoop]⟩, ?_, ?_⟩
    · simpa only [compressLoop] using hguard
    · intro extra
      cases extra with
      | zero => rfl
      | succ e =>
        show compressLoop toDataURL (0 + (e + 1)) q = compressLoop toDataURL 0 q
        rw [Nat.zero_add]
        simp only [compressLoop]
        rw [if_neg hguard]
  | succ n ih =>
    intro q hq hle
    by_cases hguard : ((toDataURL q).length : ℚ) > (MAX_FILE_SIZE : ℚ) * 137 / 100 ∧
        q > 1 / 10
    · have hq' : 0 < q - 1 / 10 := by
        have := hguard.2
        linarith
      have hle' : q - 1 / 10 ≤ ((n : ℚ) + 1) / 10 := by
        have : ((n : ℚ) + 1 + 1) / 10 = ((n : ℚ) + 1) / 10 + 1 / 10 := by ring
        push_cast at hle
        linarith
      obtain ⟨⟨k, hk, hek⟩, hg, hext⟩ := ih (q - 1 / 10) hq' hle'
      have hstep : compressLoop toDataURL (n + 1) q =
          compressLoop toDataURL n (q - 1 / 10) := by
        simp only [compressLoop]
        rw [if_pos hguard]
      refine ⟨⟨k + 1, by omega, ?_⟩, ?_, ?_⟩
      · rw [hstep, hek]
        push_cast
        ring
      · rw [hstep]
        exact hg
      · intro extra
        have harith : n + 1 + extra = (n + extra) + 1 := by omega
        rw [harith]
        simp only [compressLoop]
        rw [if_pos hguard, if_pos hguard, hext extra]
    · have hstep : ∀ m, compressLoop toDataURL (m + 1) q = q := by
        intro m
        simp only [compressLoop]
        rw [if_neg hguard]
      refine ⟨⟨0, Nat.zero_le _, by rw [hstep]; norm_num⟩, ?_, ?_⟩
      · rw [hstep]
        exact hguard
      · intro extra
        have harith : n + 1 + extra = (n + extra) + 1 := by omega
        rw [harith, hstep, hstep]

theorem jsIncludes_iff (s query : String) :
    jsIncludes s query = true ↔ List.IsInfix query.toList s.toList := by
  rw [List.infix_iff_prefix_suffix]
  simp only [jsIncludes, List.any_eq_true, List.mem_tails, List.isPrefixOf_iff_prefix]
  exact ⟨fun ⟨t, h1, h2⟩ => ⟨t, h2, h1⟩, fun ⟨t, h1, h2⟩ => ⟨t, h2, h1⟩⟩

theorem jsIncludes_empty (s : String) : jsIncludes s "" = true := by
  rw [jsIncludes_iff]
  have h : "".toList = ([] : List Char) := rfl
  rw [h]
  exact List.nil_infix

theorem adminCmp_le_zero {K : Type} [LinearOrder K] (key : Item → K)
    (dateVal : String → Int) (field : SortField)
    (hlt : ∀ a b, adminLt dateVal field a b = decide (key a < key b))
    (a b : Item) :
    (adminCmp dateVal field SortOrder.asc a b ≤ 0 ↔ key a ≤ key b) ∧
    (adminCmp dateVal field SortOrder.desc a b ≤ 0 ↔ key b ≤ key a) := by
  unfold adminCmp
  rw [hlt a b, hlt b a]
  simp only [decide_eq_true_eq]
  rcases lt_trichotomy (key a) (key b) with h | h | h
  · simp [h, lt_asymm h, h.le, h.not_le]
  · simp [h, lt_irrefl]
  · simp [h, lt_asymm h, h.le, h.not_le]

theorem sortItems_stable {K : Type} [LinearOrder K] (key : Item → K)
    (dateVal : String → Int) (field : SortField)
    (hlt : ∀ a b, adminLt dateVal field a b = decide (key a < key b))
    (items : List Item) :
    IsStableSortBy key (fun a b => key a ≤ key b) items
      (sortItems dateVal items field SortOrder.asc) ∧
    IsStableSortBy key (fun a b => key b ≤ key a) items
      (sortItems dateVal items field SortOrder.desc) := by
  constructor
  · have e : (fun a b => decide (adminCmp dateVal field SortOrder.asc a b ≤ 0)) =
        (fun a b : Item => decide (key a ≤ key b)) :=
      funext fun a => funext fun b =>
        decide_eq_decide.mpr (adminCmp_le_zero key dateVal field hlt a b).1
    unfold sortItems
    rw [e]
    exact mergeSort_stableSortBy_asc key items
  · have e : (fun a b => decide (adminCmp dateVal field SortOrder.desc a b ≤ 0)) =
        (fun a b : Item => decide (key b ≤ key a)) :=
      funext fun a => funext fun b =>
        decide_eq_decide.mpr (adminCmp_le_zero key dateVal field hlt a b).2
    unfold sortItems
    rw [e]
    exact mergeSort_stableSortBy_desc key items

theorem isStableSortBy_congr {K : Type} (inst1 inst2 : DecidableEq K)
    (key : Item → K) (r : Item → Item → Prop) (input output : List Item) :
    @IsStableSortBy K inst1 key r input output ↔
      @IsStableSortBy K inst2 key r input output := by
  have h : inst1 = inst2 := by
    funext a b
    exact Subsingleton.elim _ _
  rw [h]

theorem sortFurniture_eq_price_low (dateVal : String → Int) (items : List Item) :
    sortFurniture dateVal items "price-low" =
      items.mergeSort (fun a b => decide (a.price ≤ b.price)) := by
  have e : (fun a b : Item => decide (a.price - b.price ≤ 0)) =
      (fun a b : Item => decide (a.price ≤ b.price)) :=
    funext fun a => funext fun b => decide_eq_decide.mpr sub_nonpos
  simp [sortFurniture, e]

theorem sortFurniture_eq_price_high (dateVal : String → Int) (items : List Item) :
    sortFurniture dateVal items "price-high" =
      items.mergeSort (fun a b => decide (b.price ≤ a.price)) := by
  have e : (fun a b : Item => decide (b.price - a.price ≤ 0)) =
      (fun a b : Item => decide (b.price ≤ a.price)) :=
    funext fun a => funext fun b => decide_eq_decide.mpr sub_nonpos
  simp [sortFurniture, e]

theorem sortFurniture_eq_newest (dateVal : String → Int) (items : List Item) :
    sortFurniture dateVal items "newest" =
      items.mergeSort (fun a b => decide (dateVal b.dateAdded ≤ dateVal a.dateAdded)) := by
  have e : (fun a b : Item => decide (dateVal b.dateAdded - dateVal a.dateAdded ≤ 0)) =
      (fun a b : Item => decide (dateVal b.dateAdded ≤ dateVal a.dateAdded)) :=
    funext fun a => funext fun b => decide_eq_decide.mpr sub_nonpos
  simp [sortFurniture, e]

theorem sortFurniture_eq_oldest (dateVal : String → Int) (items : List Item) :
    sortFurniture dateVal items "oldest" =
      items.mergeSort (fun a b => decide (dateVal a.dateAdded ≤ dateVal b.dateAdded)) := by
  have e : (fun a b : Item => decide (dateVal a.dateAdded - dateVal b.dateAdded ≤ 0)) =
      (fun a b : Item => decide (dateVal a.dateAdded ≤ dateVal b.dateAdded)) :=
    funext fun a => funext fun b => decide_eq_decide.mpr sub_nonpos
  simp [sortFurniture, e]

theorem sortFurniture_eq_default (dateVal : String → Int) (items : List Item) :
    sortFurniture dateVal items "default" =
      items.mergeSort (fun a b => decide (dateVal b.dateAdded ≤ dateVal a.dateAdded)) := by
  have e : (fun a b : Item => decide (dateVal b.dateAdded - dateVal a.dateAdded ≤ 0)) =
      (fun a b : Item => decide (dateVal b.dateAdded ≤ dateVal a.dateAdded)) :=
    funext fun a => funext fun b => decide_eq_decide.mpr sub_nonpos
  simp [sortFurniture, e]

/-- Claim C7: every sort method of the showcase (`price-low`, `price-high`,
`newest`, `oldest`, `default`) and every field/order of the admin
`sortItems` produces a permutation of the input ordered by the method's sort
key in which items with equal keys keep their original relative order. -/
theorem C7_sort_comparator_stability (dateVal : String → Int) (items : List Item) :
    IsStableSortBy (fun i => i.price) (fun a b => a.price ≤ b.price) items
      (sortFurniture dateVal items "price-low") ∧
    IsStableSortBy (fun i => i.price) (fun a b => b.price ≤ a.price) items
      (sortFurniture dateVal items "price-high") ∧
    IsStableSortBy (fun i => dateVal i.dateAdded)
      (fun a b => dateVal b.dateAdded ≤ dateVal a.dateAdded) items
      (sortFurniture dateVal items "newest") ∧
    IsStableSortBy (fun i => dateVal i.dateAdded)
      (fun a b => dateVal a.dateAdded ≤ dateVal b.dateAdded) items
      (sortFurniture dateVal items "oldest") ∧
    IsStableSortBy (fun i => dateVal i.dateAdded)
      (fun a b => dateVal b.dateAdded ≤ dateVal a.dateAdded) items
      (sortFurniture dateVal items "default") ∧
    IsStableSortBy (fun i => i.price) (fun a b => a.price ≤ b.price) items
      (sortItems dateVal items SortField.price SortOrder.asc) ∧
    IsStableSortBy (fun i => i.price) (fun a b => b.price ≤ a.price) items
      (sortItems dateVal items SortField.price SortOrder.desc) ∧
    IsStableSortBy (fun i => dateKey dateVal i.dateUpdated)
      (fun a b => dateKey dateVal a.dateUpdated ≤ dateKey dateVal b.dateUpdated) items
      (sortItems dateVal items SortField.dateUpdated SortOrder.asc) ∧
    IsStableSortBy (fun i => dateKey dateVal i.dateUpdated)
      (fun a b => dateKey dateVal b.dateUpdated ≤ dateKey dateVal a.dateUpdated) items
      (sortItems dateVal items SortField.dateUpdated SortOrder.desc) ∧
    IsStableSortBy (fun i => jsToLower i.name)
      (fun a b => jsToLower a.name ≤ jsToLower b.name) items
      (sortItems dateVal items SortField.name SortOrder.asc) ∧
    IsStableSortBy (fun i => jsToLower i.name)
      (fun a b => jsToLower b.name ≤ jsToLower a.name) items
      (sortItems dateVal items SortField.name SortOrder.desc) ∧
    IsStableSortBy (fun i => jsToLower i.description)
      (fun a b => jsToLower a.description ≤ jsToLower b.description) items
      (sortItems dateVal items SortField.description SortOrder.asc) ∧
    IsStableSortBy (fun i => jsToLower i.description)
      (fun a b => jsToLower b.description ≤ jsToLower a.description) items
      (sortItems dateVal items SortField.description SortOrder.desc) ∧
    IsStableSortBy (fun i => jsToLower i.status)
      (fun a b => jsToLower a.status ≤ jsToLower b.status) items
      (sortItems dateVal items SortField.status SortOrder.asc) ∧
    IsStableSortBy (fun i => jsToLower i.status)
      (fun a b => jsToLower b.status ≤ jsToLower a.status) items
      (sortItems dateVal items SortField.status SortOrder.desc) := by
  refine ⟨?_, ?_, ?_, ?_, ?_, ?_, ?_, ?_, ?_, ?_, ?_, ?_, ?_, ?_, ?_⟩
  · rw [sortFurniture_eq_price_low]
    exact mergeSort_stableSortBy_asc (fun i => i.price) items
  · rw [sortFurniture_eq_price_high]
    exact mergeSort_stableSortBy_desc (fun i => i.price) items
  · rw [sortFurniture_eq_newest]
    exact mergeSort_stableSortBy_desc (fun i => dateVal i.dateAdded) items
  · rw [sortFurniture_eq_oldest]
    exact mergeSort_stableSortBy_asc (fun i => dateVal i.dateAdded) items
  · rw [sortFurniture_eq_default]
    exact mergeSort_stableSortBy_desc (fun i => dateVal i.dateAdded) items
  · exact (sortItems_stable (fun i => i.price) dateVal SortField.price
      (fun a b => rfl) items).1
  · exact (sortItems_stable (fun i => i.price) dateVal SortField.price
      (fun a b => rfl) items).2
  · exact (sortItems_stable (fun i => dateKey dateVal i.dateUpdated) dateVal
      SortField.dateUpdated (fun a b => rfl) items).1
  · exact (sortItems_stable (fun i => dateKey dateVal i.dateUpdated) dateVal
      SortField.dateUpdated (fun a b => rfl) items).2
  · exact (isStableSortBy_congr _ _ _ _ _ _).mpr
      (sortItems_stable (fun i => jsToLower i.name) dateVal SortField.name
        (fun a b => by unfold adminLt; exact decide_eq_decide.mpr Iff.rfl) items).1
  · exact (isStableSortBy_congr _ _ _ _ _ _).mpr
      (sortItems_stable (fun i => jsToLower i.name) dateVal SortField.name
        (fun a b => by unfold adminLt; exact decide_eq_decide.mpr Iff.rfl) items).2
  · exact (isStableSortBy_congr _ _ _ _ _ _).mpr
      (sortItems_stable (fun i => jsToLower i.description) dateVal SortField.description
        (fun a b => by unfold adminLt; exact decide_eq_decide.mpr Iff.rfl) items).1
  · exact (isStableSortBy_congr _ _ _ _ _ _).mpr
      (sortItems_stable (fun i => jsToLower i.description) dateVal SortField.description
        (fun a b => by unfold adminLt; exact decide_eq_decide.mpr Iff.rfl) items).2
  · exact (isStableSortBy_congr _ _ _ _ _ _).mpr
      (sortItems_stable (fun i => jsToLower i.status) dateVal SortField.status
        (fun a b => by unfold adminLt; exact decide_eq_decide.mpr Iff.rfl) items).1
  · exact (isStableSortBy_congr _ _ _ _ _ _).mpr
      (sortItems_stable (fun i => jsToLower i.status) dateVal SortField.status
        (fun a b => by unfold adminLt; exact decide_eq_decide.mpr Iff.rfl) items).2

/-- Claim C2: importing the output of `exportData` succeeds (returns `true`)
and leaves `loadItems` returning the same list of items, in the same order. -/
theorem C2_export_import_roundtrip (now : String) (store : Store) :
    (importData true now (some (exportData store)) store).1 = true ∧
    loadItems (importData true now (some (exportData store)) store).2 =
      loadItems store := by
  constructor
  · simp [importData, exportData, jsGetField, List.lookup, saveItemsRaw]
  · simp [importData, exportData, jsGetField, List.lookup, saveItemsRaw,
      loadItems, rawItems]

theorem mem_sortFurniture {dateVal : String → Int} {items : List Item}
    {method : String} {it : Item} :
    it ∈ sortFurniture dateVal items method ↔ it ∈ items := by
  unfold sortFurniture
  split_ifs <;> simp [List.mem_mergeSort]

/-- Claim C3: `filterByStatus('all')` is the identity on the stored list; for
any other status it keeps exactly the matching items in their original
relative order; and the showcase pipeline composes the same status predicate
with a case-insensitive substring match of the query against name or
description before sorting. -/
theorem C3_filter_predicate (store : Store) (s : String)
    (dateVal : String → Int) (furniture : List Item) (f q sortM : String) :
    filterByStatus store "all" = loadItems store ∧
    (s ≠ "all" →
      List.Sublist (filterByStatus store s) (loadItems store) ∧
      ∀ i, i ∈ filterByStatus store s ↔ i ∈ loadItems store ∧ i.status = s) ∧
    (∀ s1 s2 : String, jsIncludes s1 s2 = true ↔ List.IsInfix s2.toList s1.toList) ∧
    applyFiltersAndSort dateVal furniture f q sortM =
      sortFurniture dateVal
        (furniture.filter (fun i =>
          (f == "all" || i.status == f) &&
          (jsIncludes (jsToLower i.name) (jsToLower q) ||
            jsIncludes (jsToLower i.description) (jsToLower q))))
        sortM := by
  refine ⟨?_, ?_, ?_, ?_⟩
  · simp [filterByStatus]
  · intro hs
    have hbeq : (s == "all") = false := by
      simp [hs]
    constructor
    · simp only [filterByStatus, hbeq, Bool.false_eq_true, if_false]
      exact List.filter_sublist _
    · intro i
      simp [filterByStatus, hbeq, List.mem_filter]
  · intro s1 s2
    exact jsIncludes_iff s1 s2
  · simp only [applyFiltersAndSort]
    by_cases hf : f = "all"
    · subst hf
      by_cases hq : q = ""
      · subst hq
        have h0 : jsToLower "" = "" := rfl
        simp [h0, jsIncludes_empty]
      · have hqb : (q == "") = false := by simp [hq]
        simp [hqb, hq]
    · have hfb : (f == "all") = false := by simp [hf]
      by_cases hq : q = ""
      · subst hq
        have h0 : jsToLower "" = "" := rfl
        simp [hfb, hf, h0, jsIncludes_empty]
      · have hqb : (q == "") = false := by simp [hq]
        simp [hfb, hf, hqb, hq, List.filter_filter, Bool.and_comm]

/-- Witness for C3 at concrete inputs: the non-`all` status filter clause,
instantiated at the one-item demo store and the status `sold`. -/
theorem C3_filter_predicate_witness :
    List.Sublist (filterByStatus dupDemoStore "sold") (loadItems dupDemoStore) ∧
    ∀ i, i ∈ filterByStatus dupDemoStore "sold" ↔
      i ∈ loadItems dupDemoStore ∧ i.status = "sold" :=
  (C3_filter_predicate dupDemoStore "sold" (fun _ => 0) [] "all" "" "default").2.1
    (by decide)

/-- Claim C4: with the lightbox open on an item with `n ≥ 1` images and the
current index `i` in `[0, n)`, `nextImage` moves to `(i + 1) mod n`,
`previousImage` moves to `(i - 1 + n) mod n`, and both results stay in
`[0, n)`. -/
theorem C4_lightbox_modular_wrap (lightbox : LightboxState) (item : Item)
    (hitem : lightbox.currentItem = some item)
    (hn : 1 ≤ item.images.length)
    (hi0 : 0 ≤ lightbox.currentImageIndex)
    (hin : lightbox.currentImageIndex < (item.images.length : Int)) :
    (nextImage lightbox).currentImageIndex =
      (lightbox.currentImageIndex + 1) % (item.images.length : Int) ∧
    (previousImage lightbox).currentImageIndex =
      (lightbox.currentImageIndex - 1 + (item.images.length : Int)) %
        (item.images.length : Int) ∧
    0 ≤ (nextImage lightbox).currentImageIndex ∧
    (nextImage lightbox).currentImageIndex < (item.images.length : Int) ∧
    0 ≤ (previousImage lightbox).currentImageIndex ∧
    (previousImage lightbox).currentImageIndex < (item.images.length : Int) := by
  have hnpos : (0 : Int) < (item.images.length : Int) := by exact_mod_cast hn
  have hnz : (item.images.length : Int) ≠ 0 := ne_of_gt hnpos
  have hnext : (nextImage lightbox).currentImageIndex =
      (lightbox.currentImageIndex + 1) % (item.images.length : Int) := by
    simp only [nextImage, hitem]
    exact Int.tmod_eq_emod (by linarith) (le_of_lt hnpos)
  have hprev : (previousImage lightbox).currentImageIndex =
      (lightbox.currentImageIndex - 1 + (item.images.length : Int)) %
        (item.images.length : Int) := by
    simp only [previousImage, hitem]
    exact Int.tmod_eq_emod (by linarith) (le_of_lt hnpos)
  refine ⟨hnext, hprev, ?_, ?_, ?_, ?_⟩
  · rw [hnext]
    exact Int.emod_nonneg _ hnz
  · rw [hnext]
    exact Int.emod_lt_of_pos _ hnpos
  · rw [hprev]
    exact Int.emod_nonneg _ hnz
  · rw [hprev]
    exact Int.emod_lt_of_pos _ hnpos

/-- Witness for C4 on the concrete two-image lightbox at index 1: the next
index wraps to 0 and the previous index is 0, both within range. -/
theorem C4_lightbox_modular_wrap_witness :
    (nextImage lightboxDemo).currentImageIndex = (1 + 1) % (2 : Int) ∧
    (previousImage lightboxDemo).currentImageIndex = (1 - 1 + 2) % (2 : Int) ∧
    0 ≤ (nextImage lightboxDemo).currentImageIndex ∧
    (nextImage lightboxDemo).currentImageIndex < 2 ∧
    0 ≤ (previousImage lightboxDemo).currentImageIndex ∧
    (previousImage lightboxDemo).currentImageIndex < 2 := by
  have h := C4_lightbox_modular_wrap lightboxDemo lightboxDemoItem rfl
    (by decide) (by decide) (by decide)
  simpa [lightboxDemo, lightboxDemoItem] using h

/-- Claim C5: malformed import input (unparsable JSON or no `items` array)
makes `importData` return `false` with the stored collection unchanged, and a
failing storage write makes `saveItems` return `false` with the stored
collection unchanged. -/
theorem C5_errors_caught_nonfatal (writeOk : Bool) (now : String)
    (input : Option Json) (store : Store) :
    (¬ hasItemsArray input → importData writeOk now input store = (false, store)) ∧
    (∀ items, saveItems false now items store = (false, store)) ∧
    (∀ xs, saveItemsRaw false now xs store = (false, store)) := by
  refine ⟨?_, ?_, ?_⟩
  · intro hno
    cases input with
    | none => rfl
    | some data =>
      cases hj : jsGetField data "items" with
      | none => simp [importData, hj]
      | some j =>
        cases j with
        | arr xs => exact absurd ⟨data, xs, rfl, hj⟩ hno
        | null => simp [importData, hj]
        | bool b => simp [importData, hj]
        | num n2 => simp [importData, hj]
        | str s2 => simp [importData, hj]
        | obj fs => simp [importData, hj]
  · intro items
    rfl
  · intro xs
    rfl

/-- Witness for C5: a JSON string at the top level has no `items` array, so
importing it fails and leaves the (empty) store unchanged; a failed write
also leaves it unchanged. -/
theorem C5_errors_caught_nonfatal_witness :
    importData true "t" (some (Json.str "nope")) none = (false, none) ∧
    saveItems false "t" [] none = (false, none) := by
  have h := C5_errors_caught_nonfatal true "t" (some (Json.str "nope")) none
  refine ⟨h.1 ?_, h.2.1 []⟩
  rintro ⟨data, xs, hd, hx⟩
  cases hd
  simp [jsGetField] at hx

/-- Claim C8: a successful `saveItems` stores a document with exactly the
fields `items` (the given items) and `lastUpdated` (a timestamp), while
`exportData` produces a document with a top-level `items` array and no
`lastUpdated` field. -/
theorem C8_stored_document_shape (now : String) (items : List Item) (store : Store) :
    (saveItems true now items store).1 = true ∧
    (∃ doc, (saveItems true now items store).2 = some doc ∧
      objKeys doc = ["items", "lastUpdated"] ∧
      jsGetField doc "items" = some (Json.arr (items.map encodeItem)) ∧
      jsGetField doc "lastUpdated" = some (Json.str now) ∧
      loadItems (some doc) = items) ∧
    objKeys (exportData store) = ["items"] ∧
    jsGetField (exportData store) "items" = some (Json.arr (rawItems store)) ∧
    jsGetField (exportData store) "lastUpdated" = none := by
  refine ⟨rfl, ⟨Json.obj [("items", Json.arr (items.map encodeItem)),
    ("lastUpdated", Json.str now)], rfl, rfl, ?_, ?_, ?_⟩, rfl, ?_, ?_⟩
  · simp [jsGetField, List.lookup]
  · simp [jsGetField, List.lookup]
  · have h := loadItems_saveItems now items store
    simpa [saveItems, saveItemsRaw] using h
  · simp [exportData, jsGetField, List.lookup]
  · simp [exportData, jsGetField, List.lookup]

/-- Claim C9: the public showcase list is exactly the stored items whose
`hidden` field is not `true`, in stored order; hidden items are never found
by `openLightbox` nor contained in any rendered (filtered/sorted) list. -/
theorem C9_hidden_items_not_public (store : Store) :
    List.Sublist (loadFurnitureData store) (loadItems store) ∧
    (∀ i, i ∈ loadFurnitureData store ↔ i ∈ loadItems store ∧ i.hidden ≠ true) ∧
    (∀ itemId it,
      (loadFurnitureData store).find? (fun x => x.id == itemId) = some it →
      it.hidden = false) ∧
    (∀ (dateVal : String → Int) (f q sortM : String) it,
      it ∈ applyFiltersAndSort dateVal (loadFurnitureData store) f q sortM →
      it.hidden = false) ∧
    (∀ itemId imageIndex it,
      (openLightbox (loadFurnitureData store) itemId imageIndex
        { isOpen := false, currentItem := none, currentImageIndex := 0 }).currentItem =
          some it →
      it.hidden = false) := by
  have hmem : ∀ i, i ∈ loadFurnitureData store → i.hidden = false := by
    intro i hi
    have := (List.mem_filter.mp hi).2
    simpa using this
  refine ⟨List.filter_sublist _, ?_, ?_, ?_, ?_⟩
  · intro i
    simp [loadFurnitureData, List.mem_filter]
  · intro itemId it hfind
    exact hmem it (List.mem_of_find?_eq_some hfind)
  · intro dateVal f q sortM it hit
    apply hmem
    simp only [applyFiltersAndSort, mem_sortFurniture] at hit
    split_ifs at hit <;> (try simp only [List.mem_filter] at hit) <;> tauto
  · intro itemId imageIndex it h
    unfold openLightbox at h
    split at h
    · simp at h
    · next item heq =>
        split_ifs at h <;> simp at h
        subst h
        exact hmem _ (List.mem_of_find?_eq_some heq)

/-- Witness for C9 on a store with one visible and one hidden item: the item
found by id in the public list is not hidden, and the membership
characterization holds for the visible item. -/
theorem C9_hidden_items_not_public_witness :
    dupDemoItem.hidden = false ∧
    (dupDemoItem ∈ loadFurnitureData showcaseDemoStore ↔
      dupDemoItem ∈ loadItems showcaseDemoStore ∧ dupDemoItem.hidden ≠ true) := by
  have h := C9_hidden_items_not_public showcaseDemoStore
  exact ⟨h.2.2.1 "item-5-abcdefghi" dupDemoItem (by decide), h.2.1 dupDemoItem⟩

/-- Claim C1 counterexample: `generateId` does not consult the collection, so
its output can equal an id already present. Concretely, with the store
holding one item whose id is `generateId 5 "abcdefghi"`, the ids are pairwise
distinct, `generateId 5 "abcdefghi"` is already present, and `addItem` of an
item carrying that generated id leaves the stored ids with a duplicate. -/
theorem C1_counterexample :
    ((loadItems dupDemoStore).map (fun i => i.id)).Nodup ∧
    generateId 5 "abcdefghi" ∈ (loadItems dupDemoStore).map (fun i => i.id) ∧
    ¬ ((loadItems (addItem true "2024-01-02" dupDemoItem dupDemoStore).2).map
        (fun i => i.id)).Nodup := by
  decide

/-- Claim C1 (amended): on a store with pairwise-distinct ids, `updateItem`
and `deleteItem` always preserve distinctness; `addItem` and the admin
`duplicateItem` preserve it provided the id of the added item (the
`generateId` output) is not already present — `generateId` itself does not
guarantee this, as it never consults the collection. -/
theorem C1_id_uniqueness_amended (writeOk : Bool) (now : String) (store : Store)
    (hnodup : ((loadItems store).map (fun i => i.id)).Nodup) :
    (∀ id updatedItem,
      ((loadItems (updateItem writeOk now id updatedItem store).2).map
        (fun i => i.id)).Nodup) ∧
    (∀ id,
      ((loadItems (deleteItem writeOk now id store).2).map
        (fun i => i.id)).Nodup) ∧
    (∀ item, item.id ∉ (loadItems store).map (fun i => i.id) →
      ((loadItems (addItem writeOk now item store).2).map
        (fun i => i.id)).Nodup) ∧
    (∀ nowMs rand id,
      generateId nowMs rand ∉ (loadItems store).map (fun i => i.id) →
      ((loadItems (duplicateItem writeOk nowMs rand now id store)).map
        (fun i => i.id)).Nodup) := by
  have haddTrue : ∀ (now2 : String) (item : Item),
      item.id ∉ (loadItems store).map (fun i => i.id) →
      ((loadItems (addItem true now2 item store).2).map (fun i => i.id)).Nodup := by
    intro now2 item hnotin
    unfold addItem
    rw [loadItems_saveItems, List.map_append]
    simp only [List.map_cons, List.map_nil]
    rw [List.nodup_append]
    refine ⟨hnodup, List.nodup_singleton _, ?_⟩
    intro a ha hb
    simp only [List.mem_singleton] at hb
    subst hb
    exact hnotin ha
  refine ⟨?_, ?_, ?_, ?_⟩
  · intro id u
    simp only [updateItem]
    split
    · exact hnodup
    · next n hidx =>
      cases writeOk with
      | false => exact hnodup
      | true =>
        rw [loadItems_saveItems, List.map_set]
        obtain ⟨hlt, hp, -⟩ := List.findIdx?_eq_some_iff_getElem.mp hidx
        have hid : ((loadItems store)[n]).id = id := by
          simpa using hp
        have hget : ((loadItems store).map (fun i => i.id))[n]? = some id := by
          rw [List.getElem?_map, List.getElem?_eq_getElem hlt]
          simp [hid]
        have hset := set_of_getElem?_eq ((loadItems store).map (fun i => i.id)) n
          ({ u with id := id, dateUpdated := some now }).id (by simpa using hget)
        rw [hset]
        exact hnodup
  · intro id
    simp only [deleteItem]
    split
    · exact hnodup
    · cases writeOk with
      | false => exact hnodup
      | true =>
        rw [loadItems_saveItems]
        exact List.Nodup.sublist
          ((List.filter_sublist (loadItems store)).map (fun i => i.id)) hnodup
  · intro item hnotin
    cases writeOk with
    | false => exact hnodup
    | true => exact haddTrue now item hnotin
  · intro nowMs rand id hnotin
    simp only [duplicateItem]
    split
    · exact hnodup
    · next item hfind =>
      cases writeOk with
      | false => exact hnodup
      | true => exact haddTrue now _ (by simpa using hnotin)

/-- Witness for C1 at the concrete one-item store: deletion preserves id
distinctness, and so does `duplicateItem` when the generated id (`Date.now()`
value 6) differs from the stored one (value 5). -/
theorem C1_id_uniqueness_amended_witness :
    ((loadItems (deleteItem true "2024-01-03" "item-5-abcdefghi" dupDemoStore).2).map
      (fun i => i.id)).Nodup ∧
    ((loadItems (duplicateItem true 6 "abcdefghi" "2024-01-03" "item-5-abcdefghi"
        dupDemoStore)).map (fun i => i.id)).Nodup := by
  have h := C1_id_uniqueness_amended true "2024-01-03" dupDemoStore (by decide)
  exact ⟨h.2.1 "item-5-abcdefghi",
    h.2.2.2 6 "abcdefghi" "item-5-abcdefghi" (by decide)⟩

/-- Claim C10: when an item with the given id exists, `updateItem` replaces
exactly the item at that position; the replacement keeps the given id (even
if `updatedItem` carries another), gets a fresh `dateUpdated`, and every
other position is unchanged. When no item has the id, it returns `false` and
the store is unchanged. -/
theorem C10_updateItem_frame (now id : String) (updatedItem : Item) (store : Store) :
    (∀ n, (loadItems store).findIdx? (fun item => item.id == id) = some n →
      (updateItem true now id updatedItem store).1 = true ∧
      loadItems (updateItem true now id updatedItem store).2 =
        (loadItems store).set n
          { updatedItem with id := id, dateUpdated := some now } ∧
      (loadItems (updateItem true now id updatedItem store).2)[n]? =
        some { updatedItem with id := id, dateUpdated := some now } ∧
      (∀ m, m ≠ n →
        (loadItems (updateItem true now id updatedItem store).2)[m]? =
          (loadItems store)[m]?) ∧
      ({ updatedItem with id := id, dateUpdated := some now }).id = id ∧
      ({ updatedItem with id := id, dateUpdated := some now }).dateUpdated =
        some now) ∧
    ((∀ item ∈ loadItems store, item.id ≠ id) →
      ∀ writeOk, updateItem writeOk now id updatedItem store = (false, store)) := by
  constructor
  · intro n hidx
    have hres : updateItem true now id updatedItem store =
        saveItems true now
          ((loadItems store).set n { updatedItem with id := id, dateUpdated := some now })
          store := by
      simp only [updateItem, hidx]
    have hload : loadItems (updateItem true now id updatedItem store).2 =
        (loadItems store).set n { updatedItem with id := id, dateUpdated := some now } := by
      rw [hres, loadItems_saveItems]
    obtain ⟨hlt, -, -⟩ := List.findIdx?_eq_some_iff_getElem.mp hidx
    refine ⟨by rw [hres]; rfl, hload, ?_, ?_, rfl, rfl⟩
    · rw [hload]
      exact List.getElem?_set_self (by simpa using hlt)
    · intro m hm
      rw [hload]
      exact List.getElem?_set_ne (Ne.symm hm)
  · intro hno writeOk
    have hnone : (loadItems store).findIdx? (fun item => item.id == id) = none := by
      rw [List.findIdx?_eq_none_iff]
      intro x hx
      simpa using hno x hx
    simp only [updateItem, hnone]

/-- Witness for C10 at the concrete one-item store: updating the existing id
succeeds, and updating a missing id returns `false` and leaves the store
unchanged. -/
theorem C10_updateItem_frame_witness :
    (updateItem true "2024-02-02" "item-5-abcdefghi" hiddenDemoItem dupDemoStore).1 =
      true ∧
    updateItem true "2024-02-02" "zzz" hiddenDemoItem dupDemoStore =
      (false, dupDemoStore) := by
  have h1 := C10_updateItem_frame "2024-02-02" "item-5-abcdefghi" hiddenDemoItem
    dupDemoStore
  have h2 := C10_updateItem_frame "2024-02-02" "zzz" hiddenDemoItem dupDemoStore
  exact ⟨(h1.1 0 (by decide)).1, h2.2 (by decide) true⟩

/-- Claim C6: the compress-to-budget loop starts at quality 0.8, decreases by
exactly 0.1 per iteration, and stops as soon as the encoded size is within
1.37 × `MAX_FILE_SIZE` or the quality is no longer above 0.1; it therefore
terminates within a fixed number of iterations (at most 7) for every
encoder. -/
theorem C6_compress_loop_bounded (toDataURL : ℚ → String) :
    (∃ k : Nat, k ≤ 7 ∧ processImageQuality toDataURL = 8 / 10 - (k : ℚ) / 10) ∧
    ¬(((toDataURL (processImageQuality toDataURL)).length : ℚ) >
        (MAX_FILE_SIZE : ℚ) * 137 / 100 ∧ processImageQuality toDataURL > 1 / 10) ∧
    (∀ fuel, 7 ≤ fuel →
      compressLoop toDataURL fuel (8 / 10) = processImageQuality toDataURL) := by
  have h := compressLoop_spec toDataURL 7 (8 / 10) (by norm_num) (by norm_num)
  refine ⟨h.1, h.2.1, ?_⟩
  intro fuel hfuel
  have harith : fuel = 7 + (fuel - 7) := by omega
  rw [harith, h.2.2 (fuel - 7)]
  rfl

/-- Witness for C6 with a one-character encoder output: the loop stops
immediately at quality 0.8, and any fuel of at least 7 gives the same
result. -/
theorem C6_compress_loop_bounded_witness :
    (∃ k : Nat, k ≤ 7 ∧
      processImageQuality (fun _ => "x") = 8 / 10 - (k : ℚ) / 10) ∧
    compressLoop (fun _ => "x") 9 (8 / 10) = processImageQuality (fun _ => "x") := by
  have h := C6_compress_loop_bounded (fun _ => "x")
  exact ⟨h.1, h.2.2 9 (by norm_num)⟩
